import Mathlib

/-!
Shallow embedding of the `bullwhip-effect` beer-game simulator
(`src/model/agent.rs`, `src/model/queues.rs`, `src/simulation/config.rs`,
`src/simulation/engine.rs`, `src/strategy/implementations.rs`,
`src/strategy/traits.rs`) together with theorems settling the behavioural
claims about it.

Conventions of the embedding:
* Rust `u32` quantities become `Nat`; `i32` intermediates become `Int`
  (the mixed-sign arithmetic of the policies); the claims never exercise
  machine-width overflow.
* `f32`/`f64` cost rates become `ℚ`: every cost value arising here is an
  exact multiple of 1/2, which `f32` represents exactly.
* `&mut self` methods become state-passing functions returning the updated
  value (paired with the Rust return value where there is one).
* A Rust `panic!` becomes `Option.none` / an `Option`-returning constructor.
* `rand::thread_rng().gen_range(min..=max)` is modelled by threading an
  external entropy value `r : Nat`; the draw is `min + r % (max - min + 1)`
  when the range is non-empty, and `none` (Rust: panic on an empty range)
  otherwise.
-/

namespace Bullwhip

/-- Embeds `AgentRole` from `src/model/agent.rs`. -/
inductive AgentRole where
  | Retailer
  | Wholesaler
  | Distributor
  | Manufacturer
deriving DecidableEq, Repr, Inhabited

/-- Renders the Debug representation of a role (the `role` string stored in
history records). -/
def AgentRole.debugFmt : AgentRole → String
  | .Retailer => "Retailer"
  | .Wholesaler => "Wholesaler"
  | .Distributor => "Distributor"
  | .Manufacturer => "Manufacturer"

/-- Embeds `SimulationConfig` from `src/simulation/config.rs`; the two `f64`
cost rates are embedded as `ℚ`. -/
structure SimulationConfig where
  max_weeks : Nat
  order_delay : Nat
  shipment_delay : Nat
  initial_inventory : Nat
  holding_cost : ℚ
  backlog_cost : ℚ
deriving DecidableEq, Repr

/-- Embeds `SimulationConfig::default()`. -/
def SimulationConfig.default : SimulationConfig :=
  ⟨25, 2, 2, 15, 1/2, 1⟩

/-- Embeds `OrderContext` from `src/strategy/traits.rs`. -/
structure OrderContext where
  downstream_inventory : Option Nat
  downstream_backlog : Option Nat
  actual_customer_demand : Option Nat
deriving DecidableEq, Repr

/-- Embeds `OrderContext::default()`: all fields `None`. -/
def OrderContext.default : OrderContext := ⟨none, none, none⟩

/-! ## Decision policies (`src/strategy/implementations.rs`) -/

/-- Embeds `NaivePolicy::calculate_order`: pass-through of the incoming
demand. -/
def NaivePolicy.calculate_order (_inventory _backlog : Nat)
    (incoming_demand : Nat) (_supply_line : Nat) (_context : OrderContext) :
    Nat :=
  incoming_demand

/-- Embeds `RandomPolicy` (fields `min`, `max`). -/
structure RandomPolicy where
  min : Nat
  max : Nat
deriving DecidableEq, Repr

/-- Embeds `RandomPolicy::new`: stores the bounds unchecked. -/
def RandomPolicy.new (min max : Nat) : RandomPolicy := ⟨min, max⟩

/-- Embeds `RandomPolicy::calculate_order`: draws `gen_range(min..=max)`.
The RNG draw is modelled by the entropy argument `r`; on an empty range
(`min > max`) `gen_range` panics, modelled as `none`. -/
def RandomPolicy.calculate_order (p : RandomPolicy)
    (_inventory _backlog _demand _supply_line : Nat)
    (_context : OrderContext) (r : Nat) : Option Nat :=
  if p.min ≤ p.max then some (p.min + r % (p.max - p.min + 1)) else none

/-- Embeds `BaseStockPolicy` (field `target_stock : i32`). -/
structure BaseStockPolicy where
  target_stock : Int
deriving DecidableEq, Repr

/-- Embeds `BaseStockPolicy::new`. -/
def BaseStockPolicy.new (target_stock : Nat) : BaseStockPolicy :=
  ⟨(target_stock : Int)⟩

/-- Embeds `BaseStockPolicy::calculate_order`. -/
def BaseStockPolicy.calculate_order (p : BaseStockPolicy)
    (inventory backlog incoming_demand supply_line : Nat)
    (_context : OrderContext) : Nat :=
  let inv : Int := inventory
  let bl : Int := backlog
  let demand : Int := incoming_demand
  let supply : Int := supply_line
  let net_inventory := inv - bl + supply
  let gap := p.target_stock - net_inventory
  let raw_order := demand + gap
  if raw_order < 0 then 0 else raw_order.toNat

/-- Embeds `VMIPolicy` (fields `target_stock_downstream`,
`target_stock_own`). -/
structure VMIPolicy where
  target_stock_downstream : Int
  target_stock_own : Int
deriving DecidableEq, Repr

/-- Embeds `VMIPolicy::new`: same target for both fields. -/
def VMIPolicy.new (target_stock : Nat) : VMIPolicy :=
  ⟨(target_stock : Int), (target_stock : Int)⟩

/-- Embeds `VMIPolicy::calculate_order`: the VMI branch fires only when both
downstream fields are present; otherwise the fallback branch computes
`max(0, target_stock_own - (inventory - backlog + supply_line))` —
note it never reads `incoming_demand` (the Rust parameter is
`_incoming_demand`). -/
def VMIPolicy.calculate_order (p : VMIPolicy) (inventory backlog : Nat)
    (_incoming_demand : Nat) (supply_line : Nat) (context : OrderContext) :
    Nat :=
  match context.downstream_inventory, context.downstream_backlog with
  | some down_inv, some down_back =>
      let down_net : Int := (down_inv : Int) - (down_back : Int)
      let downstream_gap := p.target_stock_downstream - down_net
      let own_net : Int :=
        (inventory : Int) - (backlog : Int) + (supply_line : Int)
      let own_gap := p.target_stock_own - own_net
      let total_order := downstream_gap + own_gap
      if total_order < 0 then 0 else total_order.toNat
  | _, _ =>
      let net_inventory : Int :=
        (inventory : Int) - (backlog : Int) + (supply_line : Int)
      let gap := p.target_stock_own - net_inventory
      if gap < 0 then 0 else gap.toNat

/-! ## Delay pipeline (`src/model/queues.rs`) -/

/-- Embeds `TimeDelayQueue`: the `VecDeque<u32>` buffer (front = next
arrival) and the stored `delay_length`. -/
structure TimeDelayQueue where
  buffer : List Nat
  delay_length : Nat
deriving DecidableEq, Repr

/-- Embeds `TimeDelayQueue::new(delay)`: buffer pre-filled with `delay`
zeros. -/
def TimeDelayQueue.new (delay : Nat) : TimeDelayQueue :=
  ⟨List.replicate delay 0, delay⟩

/-- Embeds `pop_arrival`: `buffer.pop_front().unwrap_or(0)` — returns the
front element (removing it) or 0 on an empty buffer (which stays empty). -/
def TimeDelayQueue.pop_arrival (q : TimeDelayQueue) : Nat × TimeDelayQueue :=
  match q.buffer with
  | [] => (0, q)
  | x :: rest => (x, ⟨rest, q.delay_length⟩)

/-- Embeds `push_departure`: appends at the tail. -/
def TimeDelayQueue.push_departure (q : TimeDelayQueue) (item : Nat) :
    TimeDelayQueue :=
  ⟨q.buffer ++ [item], q.delay_length⟩

/-! ## Supply-chain agent (`src/model/agent.rs`)

The Rust agent owns a `Box<dyn OrderPolicy>`: a policy value with interior
mutable state, consulted through `calculate_order(&mut self, ...)`.  The
embedding is generic in the policy state type `σ` and stores the dynamic
dispatch as a function field returning the order together with the updated
policy state. -/

/-- Embeds `SupplyChainAgent` from `src/model/agent.rs`. -/
structure SupplyChainAgent (σ : Type) where
  role : AgentRole
  inventory : Nat
  backlog : Nat
  supply_line : Nat
  last_order_received : Nat
  last_shipment_received : Nat
  last_order_placed : Nat
  last_shipment_sent : Nat
  policyState : σ
  policyCalc : σ → Nat → Nat → Nat → Nat → OrderContext → Nat × σ

/-- Represents a boxed policy (`Box<dyn OrderPolicy>`): initial state plus
the `calculate_order` implementation. -/
structure PolicyBox (σ : Type) where
  state : σ
  calcOrder : σ → Nat → Nat → Nat → Nat → OrderContext → Nat × σ

/-- Embeds `SupplyChainAgent::new`. -/
def SupplyChainAgent.new {σ : Type} (role : AgentRole)
    (initial_inventory : Nat) (policy : PolicyBox σ) : SupplyChainAgent σ :=
  { role := role
    inventory := initial_inventory
    backlog := 0
    supply_line := 0
    last_order_received := 0
    last_shipment_received := 0
    last_order_placed := 0
    last_shipment_sent := 0
    policyState := policy.state
    policyCalc := policy.calcOrder }

/-- Embeds `SupplyChainAgent::receive_shipment`. -/
def SupplyChainAgent.receive_shipment {σ : Type} (a : SupplyChainAgent σ)
    (quantity : Nat) : SupplyChainAgent σ :=
  { a with
    inventory := a.inventory + quantity
    last_shipment_received := quantity
    supply_line :=
      if a.supply_line ≥ quantity then a.supply_line - quantity else 0 }

/-- Embeds `SupplyChainAgent::process_order`: returns
`(amount_to_ship, agent')`. -/
def SupplyChainAgent.process_order {σ : Type} (a : SupplyChainAgent σ)
    (incoming_order : Nat) : Nat × SupplyChainAgent σ :=
  let total_demand := incoming_order + a.backlog
  if a.inventory ≥ total_demand then
    (total_demand,
      { a with
        last_order_received := incoming_order
        inventory := a.inventory - total_demand
        backlog := 0
        last_shipment_sent := total_demand })
  else
    (a.inventory,
      { a with
        last_order_received := incoming_order
        backlog := total_demand - a.inventory
        inventory := 0
        last_shipment_sent := a.inventory })

/-- Embeds `SupplyChainAgent::make_decision`: returns
`(order_qty, agent')`. -/
def SupplyChainAgent.make_decision {σ : Type} (a : SupplyChainAgent σ)
    (context : OrderContext) : Nat × SupplyChainAgent σ :=
  let r := a.policyCalc a.policyState a.inventory a.backlog
    a.last_order_received a.supply_line context
  (r.1,
    { a with
      supply_line := a.supply_line + r.1
      last_order_placed := r.1
      policyState := r.2 })

/-- Embeds `SupplyChainAgent::current_cost`: inventory × 0.5 + backlog ×
1.0, with the two rates fixed in the source. -/
def SupplyChainAgent.current_cost {σ : Type} (a : SupplyChainAgent σ) : ℚ :=
  (a.inventory : ℚ) * (1/2) + (a.backlog : ℚ) * 1

/-! ## Simulation engine (`src/simulation/engine.rs`) -/

/-- Embeds `HistoryRecord`: one per agent per week; `role` carries the
Debug rendering of the agent role. -/
structure HistoryRecord where
  week : Nat
  role : String
  inventory : Nat
  backlog : Nat
  order_placed : Nat
  incoming_demand : Nat
  shipment_sent : Nat
  shipment_received : Nat
  cost : ℚ
deriving DecidableEq, Repr, Inhabited

/-- Embeds `ChainSimulation`.  `ChainSimulation::new` panics unless exactly 4
policies are supplied, so the `agents` vector always holds the four stages
(index 0 = Retailer … index 3 = Manufacturer) and the two queue vectors
always hold 3 pipes each; the embedding names these slots as fields.
Order queues flow upstream (0: R→W, 1: W→D, 2: D→M); shipment queues flow
downstream (0: W→R, 1: D→W, 2: M→D). -/
structure ChainSimulation (σ : Type) where
  config : SimulationConfig
  agentR : SupplyChainAgent σ
  agentW : SupplyChainAgent σ
  agentD : SupplyChainAgent σ
  agentM : SupplyChainAgent σ
  order_q0 : TimeDelayQueue
  order_q1 : TimeDelayQueue
  order_q2 : TimeDelayQueue
  shipment_q0 : TimeDelayQueue
  shipment_q1 : TimeDelayQueue
  shipment_q2 : TimeDelayQueue
  production_delay : TimeDelayQueue
  demand_schedule : List Nat
  current_week : Nat
  history : List HistoryRecord

/-- Embeds `ChainSimulation::new`: panics (`none`) unless exactly 4
strategies are
given; otherwise builds the agents in role order Retailer, Wholesaler,
Distributor, Manufacturer, each with `config.initial_inventory`, the three
order pipes with `order_delay`, the three shipment pipes with
`shipment_delay`, the production pipe with `shipment_delay`, week 1 and an
empty history. -/
def ChainSimulation.new {σ : Type} (config : SimulationConfig)
    (demand_schedule : List Nat) (strategies : List (PolicyBox σ)) :
    Option (ChainSimulation σ) :=
  match strategies with
  | [s0, s1, s2, s3] =>
      some
        { config := config
          agentR := SupplyChainAgent.new .Retailer config.initial_inventory s0
          agentW := SupplyChainAgent.new .Wholesaler config.initial_inventory s1
          agentD := SupplyChainAgent.new .Distributor config.initial_inventory s2
          agentM := SupplyChainAgent.new .Manufacturer config.initial_inventory s3
          order_q0 := TimeDelayQueue.new config.order_delay
          order_q1 := TimeDelayQueue.new config.order_delay
          order_q2 := TimeDelayQueue.new config.order_delay
          shipment_q0 := TimeDelayQueue.new config.shipment_delay
          shipment_q1 := TimeDelayQueue.new config.shipment_delay
          shipment_q2 := TimeDelayQueue.new config.shipment_delay
          production_delay := TimeDelayQueue.new config.shipment_delay
          demand_schedule := demand_schedule
          current_week := 1
          history := [] }
  | _ => none

/-- The history entry `record_history` appends for one agent at the given
week. -/
def recordEntry {σ : Type} (week : Nat) (a : SupplyChainAgent σ) :
    HistoryRecord :=
  { week := week
    role := a.role.debugFmt
    inventory := a.inventory
    backlog := a.backlog
    order_placed := a.last_order_placed
    incoming_demand := a.last_order_received
    shipment_sent := a.last_shipment_sent
    shipment_received := a.last_shipment_received
    cost := a.current_cost }

/-- Embeds `ChainSimulation::step`: the five phases of one week, exactly in
the
source's order.  The engine invokes `make_decision` without building any
visibility context, so the policies see the default (all-`None`) context. -/
def ChainSimulation.step {σ : Type} (sim : ChainSimulation σ) :
    ChainSimulation σ :=
  let week := sim.current_week
  -- Phase 1: arrivals
  let customer_demand := sim.demand_schedule.getD (week - 1) 0
  let wIn := sim.order_q0.pop_arrival
  let dIn := sim.order_q1.pop_arrival
  let mIn := sim.order_q2.pop_arrival
  let rArr := sim.shipment_q0.pop_arrival
  let wArr := sim.shipment_q1.pop_arrival
  let dArr := sim.shipment_q2.pop_arrival
  let mArr := sim.production_delay.pop_arrival
  -- Phase 2: receive goods, then fulfill orders
  let aR := sim.agentR.receive_shipment rArr.1
  let aW := sim.agentW.receive_shipment wArr.1
  let aD := sim.agentD.receive_shipment dArr.1
  let aM := sim.agentM.receive_shipment mArr.1
  let rShip := aR.process_order customer_demand
  let wShip := aW.process_order wIn.1
  let dShip := aD.process_order dIn.1
  let mShip := aM.process_order mIn.1
  -- Phase 2 (cont.): decisions
  let rDec := rShip.2.make_decision OrderContext.default
  let wDec := wShip.2.make_decision OrderContext.default
  let dDec := dShip.2.make_decision OrderContext.default
  let mDec := mShip.2.make_decision OrderContext.default
  -- Phase 3: departures
  let oq0 := wIn.2.push_departure rDec.1
  let oq1 := dIn.2.push_departure wDec.1
  let oq2 := mIn.2.push_departure dDec.1
  let sq0 := rArr.2.push_departure wShip.1
  let sq1 := wArr.2.push_departure dShip.1
  let sq2 := dArr.2.push_departure mShip.1
  let pd := mArr.2.push_departure mDec.1
  -- Phase 4: record (at the still-current week) and advance
  { sim with
    agentR := rDec.2
    agentW := wDec.2
    agentD := dDec.2
    agentM := mDec.2
    order_q0 := oq0
    order_q1 := oq1
    order_q2 := oq2
    shipment_q0 := sq0
    shipment_q1 := sq1
    shipment_q2 := sq2
    production_delay := pd
    history := sim.history ++
      [recordEntry week rDec.2, recordEntry week wDec.2,
       recordEntry week dDec.2, recordEntry week mDec.2]
    current_week := week + 1 }

/-- Iterated stepping (the body of the `run` loop, counted). -/
def ChainSimulation.runAux {σ : Type} :
    Nat → ChainSimulation σ → ChainSimulation σ
  | 0, sim => sim
  | n + 1, sim => ChainSimulation.runAux n sim.step

/-- Embeds `ChainSimulation::run`: the loop
`while current_week <= max_weeks do step`.
Each `step` raises `current_week` by exactly one and leaves `config`
untouched, so the loop performs exactly
`max_weeks + 1 - current_week` iterations (0 when already past the
horizon); the fuel below is that count. -/
def ChainSimulation.run {σ : Type} (sim : ChainSimulation σ) :
    ChainSimulation σ :=
  ChainSimulation.runAux (sim.config.max_weeks + 1 - sim.current_week) sim

/-- Embeds `ChainSimulation::total_supply_chain_cost`. -/
def ChainSimulation.total_supply_chain_cost {σ : Type}
    (sim : ChainSimulation σ) : ℚ :=
  (sim.history.map (fun r => r.cost)).sum

/-! ## Derived observation helpers used by the theorems -/

/-- Projects a history to its (week, role) keys. -/
def histKeys (h : List HistoryRecord) : List (Nat × String) :=
  h.map (fun r => (r.week, r.role))

/-- Lists the four (week, role) keys one `step` appends for week `w`. -/
def weekKeys (w : Nat) : List (Nat × String) :=
  [(w, "Retailer"), (w, "Wholesaler"), (w, "Distributor"), (w, "Manufacturer")]

/-- Selects the manufacturer's records of a history, in week order. -/
def mfrRecords (h : List HistoryRecord) : List HistoryRecord :=
  h.filter (fun r => r.role == "Manufacturer")

/-- Lists the manufacturer's placed orders, one per completed week. -/
def mfrOrders (h : List HistoryRecord) : List Nat :=
  (mfrRecords h).map (fun r => r.order_placed)

/-- Lists the manufacturer's received shipments, one per completed week. -/
def mfrArrivals (h : List HistoryRecord) : List Nat :=
  (mfrRecords h).map (fun r => r.shipment_received)

/-- Lists the manufacturer's record weeks, in order. -/
def mfrWeeks (h : List HistoryRecord) : List Nat :=
  (mfrRecords h).map (fun r => r.week)

/-- Drives a queue with one `pop_arrival` followed by one `push_departure`
per turn (the engine's usage pattern); returns the popped values, one per
input. -/
def TimeDelayQueue.driveOutputs : TimeDelayQueue → List Nat → List Nat
  | _, [] => []
  | q, x :: xs =>
      let p := q.pop_arrival
      p.1 :: TimeDelayQueue.driveOutputs (p.2.push_departure x) xs

/-- Builds the push sequence of the lag-exactness claim: value `v` pushed at
turn `t`, 0 pushed at every other of the `n` turns. -/
def pulseSignal (t v n : Nat) : List Nat :=
  (List.range n).map (fun i => if i + 1 = t then v else 0)

/-- States the cost formula the spec claims for a record: the configured
holding and backlog rates applied to the recorded inventory and backlog.
This follows the claim's words, for comparison with the source's
`current_cost`. -/
def claimedCost (cfg : SimulationConfig) (rec : HistoryRecord) : ℚ :=
  cfg.holding_cost * (rec.inventory : ℚ) + cfg.backlog_cost * (rec.backlog : ℚ)

/-- States the fallback order the spec claims for the VMI policy: a plain
base-stock order on the owner's own state,
`max(0, incoming_demand + (own_target − (inventory − backlog + supply_line)))`.
This follows the claim's words, for comparison with the source's fallback
branch. -/
def vmiFallbackClaimed (p : VMIPolicy)
    (inventory backlog incoming_demand supply_line : Nat) : Nat :=
  (max 0 ((incoming_demand : Int) +
    (p.target_stock_own - ((inventory : Int) - backlog + supply_line)))).toNat

/-! ## Concrete instances evaluated by witnesses and counterexamples -/

/-- Boxes `NaivePolicy` (stateless). -/
def naiveBox : PolicyBox Unit :=
  ⟨(), fun s inv bl dem sl ctx =>
    (NaivePolicy.calculate_order inv bl dem sl ctx, s)⟩

/-- Boxes `BaseStockPolicy::new 15`. -/
def bsBox : PolicyBox BaseStockPolicy :=
  ⟨BaseStockPolicy.new 15, fun p inv bl dem sl ctx =>
    (p.calculate_order inv bl dem sl ctx, p)⟩

/-- Provides an arbitrary simulation value, used only as the (never taken)
default when extracting the result of a `ChainSimulation.new` known to
succeed. -/
def fallbackSim {σ : Type} (box : PolicyBox σ) : ChainSimulation σ :=
  { config := ⟨0, 0, 0, 0, 0, 0⟩
    agentR := SupplyChainAgent.new .Retailer 0 box
    agentW := SupplyChainAgent.new .Wholesaler 0 box
    agentD := SupplyChainAgent.new .Distributor 0 box
    agentM := SupplyChainAgent.new .Manufacturer 0 box
    order_q0 := TimeDelayQueue.new 0
    order_q1 := TimeDelayQueue.new 0
    order_q2 := TimeDelayQueue.new 0
    shipment_q0 := TimeDelayQueue.new 0
    shipment_q1 := TimeDelayQueue.new 0
    shipment_q2 := TimeDelayQueue.new 0
    production_delay := TimeDelayQueue.new 0
    demand_schedule := []
    current_week := 1
    history := [] }

/-- Gives the configuration of the base-stock scenario claim: horizon 10,
delays 2/2, initial inventory 15. -/
def c2cfg : SimulationConfig := ⟨10, 2, 2, 15, 1/2, 1⟩

/-- Builds the scenario simulation: constant demand 4/week, four Base Stock
policies with target 15. -/
def c2sim : ChainSimulation BaseStockPolicy :=
  (ChainSimulation.new c2cfg (List.replicate 10 4)
    [bsBox, bsBox, bsBox, bsBox]).getD (fallbackSim bsBox)

/-- Records the scenario run's history. -/
def c2hist : List HistoryRecord := (c2sim.run).history

/-- Gives a configuration with non-default cost rates (holding 2,
backlog 5), horizon 1, initial inventory 10. -/
def c1cfg : SimulationConfig := ⟨1, 2, 2, 10, 2, 5⟩

/-- Builds a one-week run under `c1cfg` with four Naive policies and an
empty demand schedule. -/
def c1sim : ChainSimulation Unit :=
  (ChainSimulation.new c1cfg []
    [naiveBox, naiveBox, naiveBox, naiveBox]).getD (fallbackSim naiveBox)

/-- Records that run's history (four records of week 1). -/
def c1hist : List HistoryRecord := (c1sim.run).history

/-- Gives a small configuration for witness runs: horizon 3, delays 1/1,
initial inventory 5. -/
def wcfg : SimulationConfig := ⟨3, 1, 1, 5, 1/2, 1⟩

/-- Builds a witness run under `wcfg` with four Naive policies and the
one-week demand schedule `[7]` (shorter than the horizon). -/
def wsim : ChainSimulation Unit :=
  (ChainSimulation.new wcfg [7]
    [naiveBox, naiveBox, naiveBox, naiveBox]).getD (fallbackSim naiveBox)

/-- Records the witness run's history (12 records). -/
def whist : List HistoryRecord := (wsim.run).history

/-! ## Basic lemmas about the agent operations -/

section AgentLemmas

variable {σ : Type} (a : SupplyChainAgent σ)

@[simp] lemma receive_shipment_role (q : Nat) :
    (a.receive_shipment q).role = a.role := rfl

@[simp] lemma receive_shipment_inventory (q : Nat) :
    (a.receive_shipment q).inventory = a.inventory + q := rfl

@[simp] lemma receive_shipment_backlog (q : Nat) :
    (a.receive_shipment q).backlog = a.backlog := rfl

@[simp] lemma receive_shipment_last_shipment_received (q : Nat) :
    (a.receive_shipment q).last_shipment_received = q := rfl

@[simp] lemma process_order_role (o : Nat) :
    (a.process_order o).2.role = a.role := by
  unfold SupplyChainAgent.process_order
  dsimp only
  split <;> rfl

@[simp] lemma process_order_last_order_received (o : Nat) :
    (a.process_order o).2.last_order_received = o := by
  unfold SupplyChainAgent.process_order
  dsimp only
  split <;> rfl

@[simp] lemma process_order_last_shipment_received (o : Nat) :
    (a.process_order o).2.last_shipment_received = a.last_shipment_received := by
  unfold SupplyChainAgent.process_order
  dsimp only
  split <;> rfl

@[simp] lemma make_decision_role (ctx : OrderContext) :
    (a.make_decision ctx).2.role = a.role := rfl

@[simp] lemma make_decision_last_order_received (ctx : OrderContext) :
    (a.make_decision ctx).2.last_order_received = a.last_order_received := rfl

@[simp] lemma make_decision_last_shipment_received (ctx : OrderContext) :
    (a.make_decision ctx).2.last_shipment_received =
      a.last_shipment_received := rfl

@[simp] lemma make_decision_last_order_placed (ctx : OrderContext) :
    (a.make_decision ctx).2.last_order_placed = (a.make_decision ctx).1 := rfl

end AgentLemmas

/-! ## Basic lemmas about the engine step and run loop -/

section StepLemmas

variable {σ : Type} (sim : ChainSimulation σ)

lemma step_config : sim.step.config = sim.config := rfl

lemma step_current_week : sim.step.current_week = sim.current_week + 1 := rfl

lemma step_demand_schedule :
    sim.step.demand_schedule = sim.demand_schedule := rfl

lemma step_history :
    sim.step.history = sim.history ++
      [recordEntry sim.current_week sim.step.agentR,
       recordEntry sim.current_week sim.step.agentW,
       recordEntry sim.current_week sim.step.agentD,
       recordEntry sim.current_week sim.step.agentM] := rfl

lemma step_agentR_role : sim.step.agentR.role = sim.agentR.role := by
  show ((((sim.agentR.receive_shipment _).process_order
    _).2.make_decision _).2).role = _
  simp

lemma step_agentW_role : sim.step.agentW.role = sim.agentW.role := by
  show ((((sim.agentW.receive_shipment _).process_order
    _).2.make_decision _).2).role = _
  simp

lemma step_agentD_role : sim.step.agentD.role = sim.agentD.role := by
  show ((((sim.agentD.receive_shipment _).process_order
    _).2.make_decision _).2).role = _
  simp

lemma step_agentM_role : sim.step.agentM.role = sim.agentM.role := by
  show ((((sim.agentM.receive_shipment _).process_order
    _).2.make_decision _).2).role = _
  simp

lemma step_agentR_last_order_received :
    sim.step.agentR.last_order_received =
      sim.demand_schedule.getD (sim.current_week - 1) 0 := by
  show ((((sim.agentR.receive_shipment _).process_order
    (sim.demand_schedule.getD (sim.current_week - 1) 0)).2.make_decision
      _).2).last_order_received = _
  simp

lemma step_agentM_last_shipment_received :
    sim.step.agentM.last_shipment_received =
      sim.production_delay.pop_arrival.1 := by
  show ((((sim.agentM.receive_shipment
    sim.production_delay.pop_arrival.1).process_order _).2.make_decision
      _).2).last_shipment_received = _
  simp

lemma step_production_delay :
    sim.step.production_delay =
      sim.production_delay.pop_arrival.2.push_departure
        sim.step.agentM.last_order_placed := rfl

lemma runAux_zero : ChainSimulation.runAux 0 sim = sim := rfl

lemma runAux_step (n : Nat) :
    ChainSimulation.runAux (n + 1) sim = ChainSimulation.runAux n sim.step :=
  rfl

lemma runAux_succ (n : Nat) :
    ChainSimulation.runAux (n + 1) sim =
      (ChainSimulation.runAux n sim).step := by
  induction n generalizing sim with
  | zero => rfl
  | succ n ih =>
      rw [runAux_step, ih, runAux_step]

lemma runAux_config (n : Nat) :
    (ChainSimulation.runAux n sim).config = sim.config := by
  induction n generalizing sim with
  | zero => rfl
  | succ n ih => rw [runAux_step, ih, step_config]

lemma runAux_demand_schedule (n : Nat) :
    (ChainSimulation.runAux n sim).demand_schedule = sim.demand_schedule := by
  induction n generalizing sim with
  | zero => rfl
  | succ n ih => rw [runAux_step, ih, step_demand_schedule]

lemma runAux_current_week (n : Nat) :
    (ChainSimulation.runAux n sim).current_week = sim.current_week + n := by
  induction n generalizing sim with
  | zero => rfl
  | succ n ih =>
      rw [runAux_step, ih, step_current_week]
      omega

end StepLemmas

/-! ## Queue driving lemma -/

/-- Characterises a pop-then-push driven queue whose buffer is never empty:
the popped values are exactly the first `xs.length` entries of the initial
buffer followed by the pushed values. -/
lemma driveOutputs_eq_take (xs : List Nat) :
    ∀ (q : TimeDelayQueue), q.buffer ≠ [] →
      q.driveOutputs xs = (q.buffer ++ xs).take xs.length := by
  induction xs with
  | nil => intro q _; simp [TimeDelayQueue.driveOutputs]
  | cons x xs ih =>
      intro q hq
      obtain ⟨buf, dl⟩ := q
      cases buf with
      | nil => exact absurd rfl hq
      | cons b rest =>
          show b :: TimeDelayQueue.driveOutputs ⟨rest ++ [x], dl⟩ xs = _
          rw [ih ⟨rest ++ [x], dl⟩ (by simp)]
          simp [List.append_assoc, List.take_succ_cons]

/-! ## Claim C5 — agent turn conservation -/

/-- C5: over one agent turn (`receive_shipment` then `process_order`) the
shipped amount is `min(inventory_available, incoming_order + backlog)`,
inventory satisfies the conservation identity and stays non-negative, and
the new backlog is `max(0, (incoming_order + backlog) − inventory_available)`
— old backlog and new demand are summed into one obligation. -/
theorem agent_turn_conservation {σ : Type} (a : SupplyChainAgent σ)
    (q incoming_order : Nat) :
    ((a.receive_shipment q).process_order incoming_order).1 =
      min (a.inventory + q) (incoming_order + a.backlog) ∧
    ((((a.receive_shipment q).process_order incoming_order).2.inventory : Int) =
      (a.inventory : Int) + q -
        ((a.receive_shipment q).process_order incoming_order).1) ∧
    (0 : Int) ≤
      (((a.receive_shipment q).process_order incoming_order).2.inventory : Int) ∧
    ((((a.receive_shipment q).process_order incoming_order).2.backlog : Int) =
      max 0 ((incoming_order : Int) + a.backlog - ((a.inventory : Int) + q))) := by
  unfold SupplyChainAgent.process_order SupplyChainAgent.receive_shipment
  dsimp only
  split <;>
    refine ⟨by omega, by push_cast; omega, by omega, by push_cast; omega⟩

/-! ## Claim C6 — pipeline lag exactness (corrected: needs `d ≥ 1`) -/

/-- C6 counterexample: for delay `d = 0` the claim fails.  Pushing `v = 7`
at turn `t = 1` must, per the claim, be popped at turn `t + d = 1`; but the
turn-1 pop precedes the turn-1 push, finds the (unprefilled) buffer empty
and returns 0, so the value only appears at turn 2. -/
theorem tdq_lag_zero_delay_counterexample :
    ((TimeDelayQueue.new 0).driveOutputs (pulseSignal 1 7 3)).getD 0 0 = 0 ∧
    ((TimeDelayQueue.new 0).driveOutputs (pulseSignal 1 7 3)).getD 1 0 = 7 ∧
    (0 : Nat) ≠ 7 := by
  decide

/-- C6 (amended to `d ≥ 1`): for a pipeline of delay `d ≥ 1` driven with one
pop then one push per turn, feeding `v` at turn `t ≥ 1` and 0 elsewhere
over `n ≥ t + d` turns, the pop of turn `i` returns `v` exactly when
`i = t + d` and 0 at every other turn in `[1, n]`; moreover the first `d`
pops return 0 whatever is pushed. -/
theorem tdq_lag_exactness (d t v n : Nat) (hd : 1 ≤ d) (ht : 1 ≤ t)
    (hn : t + d ≤ n) :
    (∀ i, 1 ≤ i → i ≤ n →
      ((TimeDelayQueue.new d).driveOutputs (pulseSignal t v n)).getD (i - 1) 0 =
        if i = t + d then v else 0) ∧
    (∀ (xs : List Nat) (j : Nat), j < d →
      ((TimeDelayQueue.new d).driveOutputs xs).getD j 0 = 0) := by
  constructor
  · intro i hi1 hin
    have hbuf : (TimeDelayQueue.new d).buffer ≠ [] := by
      simp [TimeDelayQueue.new]
      omega
    rw [driveOutputs_eq_take _ _ hbuf]
    have hlen : (pulseSignal t v n).length = n := by
      simp [pulseSignal]
    show (List.take (pulseSignal t v n).length
      ((TimeDelayQueue.new d).buffer ++ pulseSignal t v n)).getD (i - 1) 0 = _
    rw [List.getD_eq_getElem?_getD, List.getElem?_take]
    rw [if_pos (by omega)]
    show ((List.replicate d 0 ++ pulseSignal t v n)[i - 1]?).getD 0 = _
    rw [List.getElem?_append]
    by_cases hcase : i - 1 < d
    · rw [if_pos (by simpa using hcase)]
      rw [List.getElem?_replicate, if_pos hcase]
      have : ¬ i = t + d := by omega
      simp [this]
    · rw [if_neg (by simpa using hcase)]
      unfold pulseSignal
      rw [List.getElem?_map]
      rw [List.getElem?_range (by simp; omega)]
      simp only [List.length_replicate, Option.map_some', Option.getD_some]
      by_cases heq : i = t + d
      · have h2 : i - 1 - d + 1 = t := by omega
        rw [if_pos h2, if_pos heq]
      · have h2 : ¬ (i - 1 - d + 1 = t) := by omega
        rw [if_neg h2, if_neg heq]
  · intro xs j hj
    have hbuf : (TimeDelayQueue.new d).buffer ≠ [] := by
      simp [TimeDelayQueue.new]
      omega
    rw [driveOutputs_eq_take _ _ hbuf]
    rw [List.getD_eq_getElem?_getD, List.getElem?_take]
    by_cases hxlen : j < xs.length
    · rw [if_pos hxlen]
      show ((List.replicate d 0 ++ xs)[j]?).getD 0 = 0
      rw [List.getElem?_append, if_pos (by simpa using hj)]
      rw [List.getElem?_replicate, if_pos hj]
      rfl
    · rw [if_neg hxlen]
      rfl

/-- C6 witness: delay 2, value 7 fed at turn 1 over 5 turns, popped exactly
at turn 3; and the second pop of an arbitrarily-fed delay-2 queue is 0. -/
theorem tdq_lag_exactness_witness :
    ((TimeDelayQueue.new 2).driveOutputs (pulseSignal 1 7 5)).getD 2 0 = 7 ∧
    ((TimeDelayQueue.new 2).driveOutputs [9, 8, 6]).getD 1 0 = 0 := by
  constructor
  · have h := (tdq_lag_exactness 2 1 7 5 (by decide) (by decide) (by decide)).1
      3 (by decide) (by decide)
    simpa using h
  · exact (tdq_lag_exactness 2 1 7 5 (by decide) (by decide) (by decide)).2
      [9, 8, 6] 1 (by decide)

/-! ## Claim C3 — VMI fallback (corrected: demand term is dropped) -/

/-- C3 counterexample: with no downstream visibility, target 0 and demand 5
on an empty own state, the claimed plain base-stock order is 5, but the
code's fallback ignores `incoming_demand` and returns 0. -/
theorem vmi_fallback_counterexample :
    VMIPolicy.calculate_order (VMIPolicy.new 0) 0 0 5 0 ⟨none, none, none⟩ = 0 ∧
    vmiFallbackClaimed (VMIPolicy.new 0) 0 0 5 0 = 5 ∧
    VMIPolicy.calculate_order (VMIPolicy.new 0) 0 0 5 0 ⟨none, none, none⟩ ≠
      vmiFallbackClaimed (VMIPolicy.new 0) 0 0 5 0 := by
  refine ⟨rfl, rfl, ?_⟩
  decide

/-- C3 (amended): whenever either downstream field of the context is absent,
`VMIPolicy::calculate_order` returns
`max(0, own_target − (inventory − backlog + supply_line))` — the plain
base-stock gap clamped at zero, without the `incoming_demand` term. -/
theorem vmi_fallback_order (p : VMIPolicy)
    (inventory backlog incoming_demand supply_line : Nat)
    (ctx : OrderContext)
    (h : ctx.downstream_inventory = none ∨ ctx.downstream_backlog = none) :
    p.calculate_order inventory backlog incoming_demand supply_line ctx =
      (max 0 (p.target_stock_own -
        ((inventory : Int) - backlog + supply_line))).toNat := by
  obtain ⟨di, db, ad⟩ := ctx
  have harm : VMIPolicy.calculate_order p inventory backlog incoming_demand
      supply_line ⟨di, db, ad⟩ =
      (if p.target_stock_own -
          ((inventory : Int) - backlog + supply_line) < 0 then 0
        else (p.target_stock_own -
          ((inventory : Int) - backlog + supply_line)).toNat) := by
    rcases h with h | h <;> subst h
    · cases db <;> rfl
    · cases di <;> rfl
  rw [harm]
  split <;> omega

/-- C3 amended-claim witness: target 10, own state (inventory 2, backlog 1,
supply line 4), demand 9, downstream inventory unknown: the fallback order
is 10 − 5 = 5 (demand plays no part). -/
theorem vmi_fallback_order_witness :
    VMIPolicy.calculate_order (VMIPolicy.new 10) 2 1 9 4 ⟨none, some 3, none⟩ =
      5 := by
  rw [vmi_fallback_order (VMIPolicy.new 10) 2 1 9 4 ⟨none, some 3, none⟩
    (Or.inl rfl)]
  decide

/-! ## Claim C4 — Random policy bounds (corrected: no construction check) -/

/-- C4 counterexample: `RandomPolicy::new(5, 3)` with `min > max` does not
refuse to build — it succeeds and returns the policy unchanged; the fault
only surfaces when `calculate_order` is invoked (the `gen_range` call on an
empty range, modelled as `none`). -/
theorem random_policy_counterexample :
    RandomPolicy.new 5 3 = { min := 5, max := 3 } ∧
    RandomPolicy.calculate_order (RandomPolicy.new 5 3) 1 1 1 1
      OrderContext.default 0 = none := by
  decide

/-- C4 (amended): construction stores any bounds unchecked; a policy with
`max < min` panics at every `calculate_order` call, while a well-formed one
always returns a draw within `[min, max]`. -/
theorem random_policy_unchecked (mn mx : Nat) :
    RandomPolicy.new mn mx = { min := mn, max := mx } ∧
    (mx < mn → ∀ inv bl dem sl ctx r,
      RandomPolicy.calculate_order (RandomPolicy.new mn mx) inv bl dem sl
        ctx r = none) ∧
    (mn ≤ mx → ∀ inv bl dem sl ctx r, ∃ k,
      RandomPolicy.calculate_order (RandomPolicy.new mn mx) inv bl dem sl
        ctx r = some k ∧ mn ≤ k ∧ k ≤ mx) := by
  have heval : ∀ inv bl dem sl ctx r,
      RandomPolicy.calculate_order (RandomPolicy.new mn mx) inv bl dem sl
        ctx r =
        if mn ≤ mx then some (mn + r % (mx - mn + 1)) else none :=
    fun _ _ _ _ _ _ => rfl
  refine ⟨rfl, ?_, ?_⟩
  · intro hlt inv bl dem sl ctx r
    rw [heval, if_neg (by omega)]
  · intro hle inv bl dem sl ctx r
    refine ⟨mn + r % (mx - mn + 1), ?_, Nat.le_add_right mn _, ?_⟩
    · rw [heval, if_pos hle]
    · have hmod := Nat.mod_lt r (y := mx - mn + 1) (by omega)
      omega

/-! ## Constructor elimination -/

/-- Characterises a successful `ChainSimulation::new`: exactly four
strategies were supplied and the simulation starts at week 1 with an empty
history, the four agents in role order with the configured inventory, and
the production pipe built from the shipment delay. -/
lemma new_some_elim {σ : Type} {cfg : SimulationConfig} {sched : List Nat}
    {strategies : List (PolicyBox σ)} {sim : ChainSimulation σ}
    (h : ChainSimulation.new cfg sched strategies = some sim) :
    strategies.length = 4 ∧ sim.config = cfg ∧
    sim.demand_schedule = sched ∧ sim.current_week = 1 ∧ sim.history = [] ∧
    sim.agentR.role = .Retailer ∧ sim.agentW.role = .Wholesaler ∧
    sim.agentD.role = .Distributor ∧ sim.agentM.role = .Manufacturer ∧
    sim.agentR.inventory = cfg.initial_inventory ∧
    sim.agentW.inventory = cfg.initial_inventory ∧
    sim.agentD.inventory = cfg.initial_inventory ∧
    sim.agentM.inventory = cfg.initial_inventory ∧
    sim.production_delay = TimeDelayQueue.new cfg.shipment_delay := by
  rcases strategies with _ | ⟨s0, _ | ⟨s1, _ | ⟨s2, _ | ⟨s3, _ | ⟨s4, rest⟩⟩⟩⟩⟩
  · exact Option.noConfusion h
  · exact Option.noConfusion h
  · exact Option.noConfusion h
  · exact Option.noConfusion h
  · injection h with h'
    subst h'
    exact ⟨rfl, rfl, rfl, rfl, rfl, rfl, rfl, rfl, rfl, rfl, rfl, rfl, rfl,
      rfl⟩
  · exact Option.noConfusion h

/-! ## Claim C1 — recorded cost (corrected: rates are fixed constants) -/

/-- Provides membership of an indexed element, avoiding decidable equality
on records (whose rational cost field does not kernel-reduce). -/
lemma getD_mem {α : Type} [Inhabited α] (l : List α) (i : Nat)
    (h : i < l.length) : l.getD i default ∈ l := by
  rw [List.getD_eq_getElem?_getD, List.getElem?_eq_getElem h]
  exact List.getElem_mem h

/-- Propagates the fixed-rate cost formula through any number of engine
steps: every appended record carries `current_cost` of its agent, which is
0.5 × inventory + 1.0 × backlog by definition. -/
lemma runAux_cost_formula {σ : Type} (m : Nat) (s : ChainSimulation σ)
    (hs : ∀ rec ∈ s.history,
      rec.cost = (rec.inventory : ℚ) * (1/2) + (rec.backlog : ℚ) * 1) :
    ∀ rec ∈ (ChainSimulation.runAux m s).history,
      rec.cost = (rec.inventory : ℚ) * (1/2) + (rec.backlog : ℚ) * 1 := by
  induction m generalizing s with
  | zero => exact hs
  | succ m ih =>
      intro rec hrec
      rw [runAux_succ, step_history] at hrec
      rcases List.mem_append.mp hrec with hmem | hmem
      · exact ih s hs rec hmem
      · simp only [List.mem_cons, List.not_mem_nil, or_false] at hmem
        rcases hmem with rfl | rfl | rfl | rfl <;> rfl

/-- C1 counterexample: under a configuration with holding rate 2 and
backlog rate 5, the week-1 retailer record of a Naive run holds inventory
10 and backlog 0; the claim says its cost is 2×10 + 5×0 = 20, but the code
records 0.5×10 + 1×0 = 5. -/
theorem recorded_cost_counterexample :
    (c1hist.getD 0 default).week = 1 ∧
    (c1hist.getD 0 default).role = "Retailer" ∧
    (c1hist.getD 0 default).inventory = 10 ∧
    (c1hist.getD 0 default).backlog = 0 ∧
    (c1hist.getD 0 default).cost = 5 ∧
    claimedCost c1cfg (c1hist.getD 0 default) = 20 ∧
    (c1hist.getD 0 default).cost ≠ claimedCost c1cfg (c1hist.getD 0 default) := by
  have hinv : (c1hist.getD 0 default).inventory = 10 := by decide
  have hbl : (c1hist.getD 0 default).backlog = 0 := by decide
  have hcost : (c1hist.getD 0 default).cost =
      ((c1hist.getD 0 default).inventory : ℚ) * (1/2) +
        ((c1hist.getD 0 default).backlog : ℚ) * 1 :=
    runAux_cost_formula 1 c1sim
      (by intro r hr; exact absurd hr (List.not_mem_nil r))
      (c1hist.getD 0 default) (getD_mem c1hist 0 (by decide))
  have hc : (c1hist.getD 0 default).cost = 5 := by
    rw [hcost, hinv, hbl]
    norm_num
  have hclaim : claimedCost c1cfg (c1hist.getD 0 default) = 20 := by
    unfold claimedCost c1cfg
    rw [hinv, hbl]
    norm_num
  refine ⟨by decide, by decide, hinv, hbl, hc, hclaim, ?_⟩
  rw [hc, hclaim]
  norm_num

/-- C1 (amended): every recorded cost equals 0.5 × inventory + 1.0 ×
backlog with the two rates fixed constants in `current_cost`, whatever
`holding_cost`/`backlog_cost` the configuration carries (those fields feed
only the optimal-target sizing helpers). -/
theorem recorded_cost_fixed_rates {σ : Type} (cfg : SimulationConfig)
    (sched : List Nat) (strategies : List (PolicyBox σ))
    (sim : ChainSimulation σ)
    (hnew : ChainSimulation.new cfg sched strategies = some sim) (n : Nat) :
    ∀ rec ∈ (ChainSimulation.runAux n sim).history,
      rec.cost = (rec.inventory : ℚ) * (1/2) + (rec.backlog : ℚ) * 1 := by
  have hnil : sim.history = [] := (new_some_elim hnew).2.2.2.2.1
  refine runAux_cost_formula n sim ?_
  rw [hnil]
  intro r hr
  exact absurd hr (List.not_mem_nil r)

/-- C1 amended-claim witness: the week-1 retailer record of the `c1cfg` run
satisfies the fixed-rate formula (cost 5 for inventory 10, backlog 0). -/
theorem recorded_cost_fixed_rates_witness :
    (c1hist.getD 0 default).cost =
      ((c1hist.getD 0 default).inventory : ℚ) * (1/2) +
        ((c1hist.getD 0 default).backlog : ℚ) * 1 :=
  recorded_cost_fixed_rates c1cfg []
    [naiveBox, naiveBox, naiveBox, naiveBox] c1sim rfl 1
    (c1hist.getD 0 default) (getD_mem c1hist 0 (by decide))

/-! ## History-shape machinery (claims C7, C8, C10) -/

section HistoryShape

variable {σ : Type}

lemma step_histKeys (sim : ChainSimulation σ)
    (hR : sim.agentR.role = .Retailer) (hW : sim.agentW.role = .Wholesaler)
    (hD : sim.agentD.role = .Distributor)
    (hM : sim.agentM.role = .Manufacturer) :
    histKeys sim.step.history =
      histKeys sim.history ++ weekKeys sim.current_week := by
  simp only [step_history, histKeys, weekKeys, List.map_append, List.map_cons,
    List.map_nil, recordEntry]
  rw [step_agentR_role, step_agentW_role, step_agentD_role, step_agentM_role,
    hR, hW, hD, hM]
  rfl

lemma runAux_agentR_role (n : Nat) (sim : ChainSimulation σ) :
    (ChainSimulation.runAux n sim).agentR.role = sim.agentR.role := by
  induction n with
  | zero => rfl
  | succ n ih => rw [runAux_succ, step_agentR_role, ih]

lemma runAux_agentW_role (n : Nat) (sim : ChainSimulation σ) :
    (ChainSimulation.runAux n sim).agentW.role = sim.agentW.role := by
  induction n with
  | zero => rfl
  | succ n ih => rw [runAux_succ, step_agentW_role, ih]

lemma runAux_agentD_role (n : Nat) (sim : ChainSimulation σ) :
    (ChainSimulation.runAux n sim).agentD.role = sim.agentD.role := by
  induction n with
  | zero => rfl
  | succ n ih => rw [runAux_succ, step_agentD_role, ih]

lemma runAux_agentM_role (n : Nat) (sim : ChainSimulation σ) :
    (ChainSimulation.runAux n sim).agentM.role = sim.agentM.role := by
  induction n with
  | zero => rfl
  | succ n ih => rw [runAux_succ, step_agentM_role, ih]

lemma runAux_histKeys (n : Nat) (sim : ChainSimulation σ)
    (hR : sim.agentR.role = .Retailer) (hW : sim.agentW.role = .Wholesaler)
    (hD : sim.agentD.role = .Distributor)
    (hM : sim.agentM.role = .Manufacturer) :
    histKeys (ChainSimulation.runAux n sim).history =
      histKeys sim.history ++
        (List.range n).flatMap (fun k => weekKeys (sim.current_week + k)) := by
  induction n with
  | zero => simp [runAux_zero]
  | succ n ih =>
      rw [runAux_succ,
        step_histKeys _ (by rw [runAux_agentR_role, hR])
          (by rw [runAux_agentW_role, hW]) (by rw [runAux_agentD_role, hD])
          (by rw [runAux_agentM_role, hM]),
        ih, runAux_current_week, List.range_succ, List.flatMap_append,
        List.append_assoc]
      simp

lemma flatMap_weekKeys_length (c n : Nat) :
    ((List.range n).flatMap (fun k => weekKeys (c + k))).length = 4 * n := by
  induction n with
  | zero => simp
  | succ n ih =>
      rw [List.range_succ, List.flatMap_append, List.length_append, ih]
      simp [weekKeys]
      omega

lemma countP_weekKeys (m w : Nat) (ro : String)
    (hro : ro = "Retailer" ∨ ro = "Wholesaler" ∨ ro = "Distributor" ∨
      ro = "Manufacturer") :
    (weekKeys m).countP (fun p => p.1 == w && p.2 == ro) =
      if m = w then 1 else 0 := by
  rcases hro with rfl | rfl | rfl | rfl <;>
    by_cases hw : m = w <;>
      simp [weekKeys, List.countP_cons, hw]

lemma countP_flatMap_weekKeys (w : Nat) (ro : String)
    (hro : ro = "Retailer" ∨ ro = "Wholesaler" ∨ ro = "Distributor" ∨
      ro = "Manufacturer") (n : Nat) :
    ((List.range n).flatMap (fun k => weekKeys (1 + k))).countP
      (fun p => p.1 == w && p.2 == ro) =
      if 1 ≤ w ∧ w ≤ n then 1 else 0 := by
  induction n with
  | zero =>
      simp only [List.range_zero, List.flatMap_nil, List.countP_nil]
      split_ifs <;> omega
  | succ n ih =>
      rw [List.range_succ, List.flatMap_append, List.countP_append, ih]
      rw [List.flatMap_cons, List.flatMap_nil, List.append_nil]
      rw [countP_weekKeys _ _ _ hro]
      split_ifs <;> omega

lemma run_eq_runAux_of_new {cfg : SimulationConfig} {sched : List Nat}
    {strategies : List (PolicyBox σ)} {sim : ChainSimulation σ}
    (hnew : ChainSimulation.new cfg sched strategies = some sim) :
    sim.run = ChainSimulation.runAux cfg.max_weeks sim := by
  obtain ⟨-, hcfg, -, hweek, -⟩ := new_some_elim hnew
  unfold ChainSimulation.run
  rw [hcfg, hweek]
  norm_num

lemma run_history_length {σ : Type} {cfg : SimulationConfig}
    {sched : List Nat} {strategies : List (PolicyBox σ)}
    {sim : ChainSimulation σ}
    (hnew : ChainSimulation.new cfg sched strategies = some sim) (n : Nat) :
    (ChainSimulation.runAux n sim).history.length = 4 * n := by
  obtain ⟨-, -, -, hweek, hnil, hR, hW, hD, hM, -⟩ := new_some_elim hnew
  have h1 : (histKeys (ChainSimulation.runAux n sim).history).length =
      (ChainSimulation.runAux n sim).history.length := by
    unfold histKeys
    rw [List.length_map]
  rw [← h1, runAux_histKeys n sim hR hW hD hM, hnil, hweek]
  rw [show histKeys ([] : List HistoryRecord) = [] from rfl,
    List.nil_append, flatMap_weekKeys_length]

end HistoryShape

/-! ## Claim C7 — history completeness -/

/-- C7: from any successfully constructed simulation, every completed turn
appends exactly 4 records (`len(history) = 4 × completed turns`); after
`run()` on a horizon of `W` weeks the history holds `4 × W` records, with
exactly one record for every (week, role) pair in `[1, W] × {Retailer,
Wholesaler, Distributor, Manufacturer}`. -/
theorem history_completeness {σ : Type} (cfg : SimulationConfig)
    (sched : List Nat) (strategies : List (PolicyBox σ))
    (sim : ChainSimulation σ)
    (hnew : ChainSimulation.new cfg sched strategies = some sim) :
    (∀ n, (ChainSimulation.runAux n sim).history.length = 4 * n) ∧
    (sim.run).history.length = 4 * cfg.max_weeks ∧
    (∀ w ro, 1 ≤ w → w ≤ cfg.max_weeks →
      (ro = "Retailer" ∨ ro = "Wholesaler" ∨ ro = "Distributor" ∨
        ro = "Manufacturer") →
      ((sim.run).history.countP
        (fun rec => rec.week == w && rec.role == ro)) = 1) := by
  obtain ⟨-, hcfg, -, hweek, hnil, hR, hW, hD, hM, -⟩ := new_some_elim hnew
  have hkeys : ∀ n, histKeys (ChainSimulation.runAux n sim).history =
      (List.range n).flatMap (fun k => weekKeys (1 + k)) := by
    intro n
    rw [runAux_histKeys n sim hR hW hD hM, hnil, hweek]
    simp [histKeys]
  have hlen : ∀ n, (ChainSimulation.runAux n sim).history.length = 4 * n := by
    intro n
    have h1 : (histKeys (ChainSimulation.runAux n sim).history).length =
        (ChainSimulation.runAux n sim).history.length := by
      unfold histKeys
      rw [List.length_map]
    rw [← h1, hkeys n, flatMap_weekKeys_length]
  refine ⟨hlen, ?_, ?_⟩
  · rw [run_eq_runAux_of_new hnew, hlen]
  · intro w ro hw1 hw2 hro
    have hcount : (histKeys (sim.run).history).countP
        (fun p => p.1 == w && p.2 == ro) = 1 := by
      rw [run_eq_runAux_of_new hnew, hkeys,
        countP_flatMap_weekKeys w ro hro cfg.max_weeks,
        if_pos ⟨hw1, hw2⟩]
    rw [histKeys, List.countP_map] at hcount
    exact hcount

/-- C7 witness: the 3-week Naive witness run has 12 records and exactly one
(week 2, Manufacturer) record. -/
theorem history_completeness_witness :
    whist.length = 12 ∧
    (whist.countP (fun rec => rec.week == 2 && rec.role == "Manufacturer")) =
      1 := by
  have h := history_completeness wcfg [7]
    [naiveBox, naiveBox, naiveBox, naiveBox] wsim rfl
  exact ⟨h.2.1, h.2.2 2 "Manufacturer" (by decide) (by decide)
    (by right; right; right; rfl)⟩

/-! ## Claim C8 — schedules shorter than the horizon -/

/-- Propagates, through any number of steps, that every retailer record's
`incoming_demand` is the schedule entry of its week (`getD` index week−1,
default 0) and that recorded weeks stay below the current week. -/
lemma runAux_retailer_demand (n : Nat) {σ : Type} (sim : ChainSimulation σ)
    (hR : sim.agentR.role = .Retailer) (hW : sim.agentW.role = .Wholesaler)
    (hD : sim.agentD.role = .Distributor)
    (hM : sim.agentM.role = .Manufacturer)
    (hwk : ∀ rec ∈ sim.history, rec.week < sim.current_week)
    (hdem : ∀ rec ∈ sim.history, rec.role = "Retailer" →
      rec.incoming_demand = sim.demand_schedule.getD (rec.week - 1) 0) :
    (∀ rec ∈ (ChainSimulation.runAux n sim).history,
      rec.week < (ChainSimulation.runAux n sim).current_week) ∧
    (∀ rec ∈ (ChainSimulation.runAux n sim).history,
      rec.role = "Retailer" →
      rec.incoming_demand = sim.demand_schedule.getD (rec.week - 1) 0) := by
  induction n generalizing sim with
  | zero => exact ⟨hwk, hdem⟩
  | succ n ih =>
      rw [runAux_step]
      have hstepwk : ∀ rec ∈ sim.step.history,
          rec.week < sim.step.current_week := by
        intro rec hrec
        rw [step_current_week]
        rw [step_history] at hrec
        rcases List.mem_append.mp hrec with hmem | hmem
        · have := hwk rec hmem
          omega
        · simp only [List.mem_cons, List.not_mem_nil, or_false] at hmem
          rcases hmem with rfl | rfl | rfl | rfl <;>
            exact Nat.lt_succ_self _
      have hstepdem : ∀ rec ∈ sim.step.history, rec.role = "Retailer" →
          rec.incoming_demand =
            sim.step.demand_schedule.getD (rec.week - 1) 0 := by
        intro rec hrec hrole
        rw [step_demand_schedule]
        rw [step_history] at hrec
        rcases List.mem_append.mp hrec with hmem | hmem
        · exact hdem rec hmem hrole
        · simp only [List.mem_cons, List.not_mem_nil, or_false] at hmem
          rcases hmem with rfl | rfl | rfl | rfl
          · show sim.step.agentR.last_order_received =
              sim.demand_schedule.getD (sim.current_week - 1) 0
            exact step_agentR_last_order_received sim
          · have hr : (recordEntry sim.current_week sim.step.agentW).role =
                "Wholesaler" := by
              show sim.step.agentW.role.debugFmt = "Wholesaler"
              rw [step_agentW_role, hW]
              rfl
            rw [hr] at hrole
            exact absurd hrole (by decide)
          · have hr : (recordEntry sim.current_week sim.step.agentD).role =
                "Distributor" := by
              show sim.step.agentD.role.debugFmt = "Distributor"
              rw [step_agentD_role, hD]
              rfl
            rw [hr] at hrole
            exact absurd hrole (by decide)
          · have hr : (recordEntry sim.current_week sim.step.agentM).role =
                "Manufacturer" := by
              show sim.step.agentM.role.debugFmt = "Manufacturer"
              rw [step_agentM_role, hM]
              rfl
            rw [hr] at hrole
            exact absurd hrole (by decide)
      have hres := ih sim.step (by rw [step_agentR_role]; exact hR)
        (by rw [step_agentW_role]; exact hW)
        (by rw [step_agentD_role]; exact hD)
        (by rw [step_agentM_role]; exact hM) hstepwk hstepdem
      rw [step_demand_schedule] at hres
      exact hres

/-- C8: a demand schedule shorter than the horizon is tolerated — the run
completes all `max_weeks` weeks (final week counter `max_weeks + 1`, full
4×W history), and every retailer record of a week beyond the schedule's
length shows external customer demand 0. -/
theorem short_schedule_zero_demand {σ : Type} (cfg : SimulationConfig)
    (sched : List Nat) (strategies : List (PolicyBox σ))
    (sim : ChainSimulation σ)
    (hnew : ChainSimulation.new cfg sched strategies = some sim)
    (hshort : sched.length < cfg.max_weeks) :
    (sim.run).current_week = cfg.max_weeks + 1 ∧
    (sim.run).history.length = 4 * cfg.max_weeks ∧
    ∀ rec ∈ (sim.run).history, rec.role = "Retailer" →
      sched.length < rec.week → rec.incoming_demand = 0 := by
  obtain ⟨-, hcfg, hsched, hweek, hnil, hR, hW, hD, hM, -⟩ := new_some_elim hnew
  have hrun := run_eq_runAux_of_new hnew
  refine ⟨?_, ?_, ?_⟩
  · rw [hrun, runAux_current_week, hweek]
    omega
  · rw [hrun]
    exact run_history_length hnew cfg.max_weeks
  · intro rec hrec hrole hpast
    have hbase : ∀ r ∈ sim.history, True := fun _ _ => trivial
    have hinv := runAux_retailer_demand cfg.max_weeks sim hR hW hD hM
      (by rw [hnil]; intro r hr; exact absurd hr (List.not_mem_nil r))
      (by rw [hnil]; intro r hr; exact absurd hr (List.not_mem_nil r))
    rw [hrun] at hrec
    have hd := hinv.2 rec hrec hrole
    rw [hsched] at hd
    rw [hd, List.getD_eq_default]
    omega

/-- C8 witness: the 3-week witness run (schedule `[7]`, length 1 < 3)
finishes at week 4 with 12 records, and its week-3 retailer record shows
demand 0. -/
theorem short_schedule_zero_demand_witness :
    (wsim.run).current_week = 4 ∧
    (wsim.run).history.length = 12 ∧
    (whist.getD 8 default).incoming_demand = 0 := by
  have h := short_schedule_zero_demand wcfg [7]
    [naiveBox, naiveBox, naiveBox, naiveBox] wsim rfl (by decide)
  refine ⟨h.1, h.2.1, ?_⟩
  refine h.2.2 (whist.getD 8 default) (getD_mem whist 8 (by decide)) ?_ ?_
  · decide
  · decide

/-! ## Claim C2 — the base-stock scenario (corrected: backlogs do occur) -/

/-- C2 counterexample: in the scenario run (constant demand 4, horizon 10,
four Base Stock(15) policies, delays 2/2, initial inventory 15) the week-4
retailer record carries backlog 1 — the run does stock out — and in the
final week the manufacturer orders 0, not 4, so no steady state with every
order equal to 4 is reached during the run. -/
theorem base_stock_scenario_counterexample :
    (c2hist.getD 12 default).week = 4 ∧
    (c2hist.getD 12 default).role = "Retailer" ∧
    (c2hist.getD 12 default).backlog = 1 ∧
    ¬ (∀ rec ∈ c2hist, rec.backlog = 0) ∧
    (c2hist.getD 39 default).week = 10 ∧
    (c2hist.getD 39 default).role = "Manufacturer" ∧
    (c2hist.getD 39 default).order_placed = 0 ∧
    (c2hist.getD 39 default).order_placed ≠ 4 := by
  decide

/-- C2 (amended): in that scenario only the retailer settles — it orders 4
from week 2 on; the first three weeks are backlog-free, but from week 4
transient backlogs appear (retailer 1 in week 4; manufacturer 17 with an
order of 64 in week 7) while orders amplify upstream (wholesaler 16 in
week 3, distributor 32 in week 5), and in the final week all stages except
the manufacturer order 4 while the manufacturer orders 0. -/
theorem base_stock_scenario_behaviour :
    (∀ rec ∈ c2hist, rec.role = "Retailer" → 2 ≤ rec.week →
      rec.order_placed = 4) ∧
    (∀ rec ∈ c2hist, rec.week ≤ 3 → rec.backlog = 0) ∧
    (c2hist.getD 12 default).backlog = 1 ∧
    (c2hist.getD 27 default).week = 7 ∧
    (c2hist.getD 27 default).role = "Manufacturer" ∧
    (c2hist.getD 27 default).backlog = 17 ∧
    (c2hist.getD 27 default).order_placed = 64 ∧
    (c2hist.getD 9 default).role = "Wholesaler" ∧
    (c2hist.getD 9 default).week = 3 ∧
    (c2hist.getD 9 default).order_placed = 16 ∧
    (c2hist.getD 18 default).role = "Distributor" ∧
    (c2hist.getD 18 default).week = 5 ∧
    (c2hist.getD 18 default).order_placed = 32 ∧
    (∀ rec ∈ c2hist, rec.week = 10 →
      rec.role = "Manufacturer" ∨ rec.order_placed = 4) ∧
    (c2hist.getD 39 default).order_placed = 0 := by
  decide

/-! ## Claim C9 — construction requires exactly four policies -/

/-- C9: `ChainSimulation::new` refuses to build (panics, embedded as
`none`) unless exactly 4 policies are supplied; with exactly 4 it builds
the agents in role order Retailer, Wholesaler, Distributor, Manufacturer,
each holding the configured initial inventory. -/
theorem chain_new_exactly_four {σ : Type} (cfg : SimulationConfig)
    (sched : List Nat) (strategies : List (PolicyBox σ)) :
    (strategies.length ≠ 4 → ChainSimulation.new cfg sched strategies = none) ∧
    (strategies.length = 4 → ∃ sim,
      ChainSimulation.new cfg sched strategies = some sim ∧
      sim.agentR.role = .Retailer ∧ sim.agentW.role = .Wholesaler ∧
      sim.agentD.role = .Distributor ∧ sim.agentM.role = .Manufacturer ∧
      sim.agentR.inventory = cfg.initial_inventory ∧
      sim.agentW.inventory = cfg.initial_inventory ∧
      sim.agentD.inventory = cfg.initial_inventory ∧
      sim.agentM.inventory = cfg.initial_inventory) := by
  rcases strategies with _ | ⟨s0, _ | ⟨s1, _ | ⟨s2, _ | ⟨s3, _ | ⟨s4, rest⟩⟩⟩⟩⟩
  · exact ⟨fun _ => rfl, fun h => absurd h (by simp)⟩
  · exact ⟨fun _ => rfl, fun h => absurd h (by simp)⟩
  · exact ⟨fun _ => rfl, fun h => absurd h (by simp)⟩
  · exact ⟨fun _ => rfl, fun h => absurd h (by simp)⟩
  · exact ⟨fun h => absurd rfl h,
      fun _ => ⟨_, rfl, rfl, rfl, rfl, rfl, rfl, rfl, rfl, rfl⟩⟩
  · exact ⟨fun _ => rfl, fun h => absurd h (by simp)⟩

/-- C9 witness: one policy is rejected; four Naive policies build a
simulation with the expected role order and inventories. -/
theorem chain_new_exactly_four_witness :
    ChainSimulation.new wcfg [] [naiveBox] = none ∧
    ∃ sim, ChainSimulation.new wcfg [7]
        [naiveBox, naiveBox, naiveBox, naiveBox] = some sim ∧
      sim.agentR.role = .Retailer ∧ sim.agentW.role = .Wholesaler ∧
      sim.agentD.role = .Distributor ∧ sim.agentM.role = .Manufacturer ∧
      sim.agentR.inventory = wcfg.initial_inventory ∧
      sim.agentW.inventory = wcfg.initial_inventory ∧
      sim.agentD.inventory = wcfg.initial_inventory ∧
      sim.agentM.inventory = wcfg.initial_inventory :=
  ⟨(chain_new_exactly_four wcfg [] [naiveBox]).1 (by decide),
   (chain_new_exactly_four wcfg [7]
     [naiveBox, naiveBox, naiveBox, naiveBox]).2 rfl⟩

/-! ## Claim C10 — manufacturer production pipeline -/

lemma step_mfrRecords {σ : Type} (sim : ChainSimulation σ)
    (hR : sim.agentR.role = .Retailer) (hW : sim.agentW.role = .Wholesaler)
    (hD : sim.agentD.role = .Distributor)
    (hM : sim.agentM.role = .Manufacturer) :
    mfrRecords sim.step.history = mfrRecords sim.history ++
      [recordEntry sim.current_week sim.step.agentM] := by
  have e1 : (recordEntry sim.current_week sim.step.agentR).role =
      "Retailer" := by
    show sim.step.agentR.role.debugFmt = "Retailer"
    rw [step_agentR_role, hR]
    rfl
  have e2 : (recordEntry sim.current_week sim.step.agentW).role =
      "Wholesaler" := by
    show sim.step.agentW.role.debugFmt = "Wholesaler"
    rw [step_agentW_role, hW]
    rfl
  have e3 : (recordEntry sim.current_week sim.step.agentD).role =
      "Distributor" := by
    show sim.step.agentD.role.debugFmt = "Distributor"
    rw [step_agentD_role, hD]
    rfl
  have e4 : (recordEntry sim.current_week sim.step.agentM).role =
      "Manufacturer" := by
    show sim.step.agentM.role.debugFmt = "Manufacturer"
    rw [step_agentM_role, hM]
    rfl
  unfold mfrRecords
  rw [step_history, List.filter_append]
  congr 1
  simp [List.filter_cons, e1, e2, e3, e4]

/-- Carries the production-pipe bookkeeping through the run: after `n`
steps the manufacturer has placed one order per week `1..n`, the pipe's
buffer holds the tail of `replicate sd 0 ++ orders` from position `n`, and
the recorded manufacturer arrivals are the first `n` entries of that same
stream.  Requires shipment delay ≥ 1 so the pop never hits an empty
buffer. -/
lemma runAux_mfr_pipeline (n : Nat) {σ : Type} (sim : ChainSimulation σ)
    (hsd : 1 ≤ sim.config.shipment_delay)
    (hR : sim.agentR.role = .Retailer) (hW : sim.agentW.role = .Wholesaler)
    (hD : sim.agentD.role = .Distributor)
    (hM : sim.agentM.role = .Manufacturer)
    (hnil : sim.history = []) (hweek : sim.current_week = 1)
    (hprod : sim.production_delay.buffer =
      List.replicate sim.config.shipment_delay 0) :
    (mfrOrders (ChainSimulation.runAux n sim).history).length = n ∧
    mfrWeeks (ChainSimulation.runAux n sim).history = List.range' 1 n ∧
    (ChainSimulation.runAux n sim).production_delay.buffer =
      (List.replicate sim.config.shipment_delay 0 ++
        mfrOrders (ChainSimulation.runAux n sim).history).drop n ∧
    mfrArrivals (ChainSimulation.runAux n sim).history =
      (List.replicate sim.config.shipment_delay 0 ++
        mfrOrders (ChainSimulation.runAux n sim).history).take n := by
  induction n with
  | zero =>
      refine ⟨?_, ?_, ?_, ?_⟩ <;>
        simp [runAux_zero, hnil, mfrOrders, mfrWeeks, mfrArrivals,
          mfrRecords, hprod]
  | succ n ih =>
      obtain ⟨hlen, hwks, hbuf, harr⟩ := ih
      have hRn : (ChainSimulation.runAux n sim).agentR.role = .Retailer := by
        rw [runAux_agentR_role]; exact hR
      have hWn : (ChainSimulation.runAux n sim).agentW.role = .Wholesaler := by
        rw [runAux_agentW_role]; exact hW
      have hDn : (ChainSimulation.runAux n sim).agentD.role = .Distributor := by
        rw [runAux_agentD_role]; exact hD
      have hMn : (ChainSimulation.runAux n sim).agentM.role =
          .Manufacturer := by
        rw [runAux_agentM_role]; exact hM
      have hcw : (ChainSimulation.runAux n sim).current_week = 1 + n := by
        rw [runAux_current_week, hweek]
      have hrec := step_mfrRecords (ChainSimulation.runAux n sim) hRn hWn
        hDn hMn
      have hAlen : (List.replicate sim.config.shipment_delay 0 ++
          mfrOrders (ChainSimulation.runAux n sim).history).length =
          sim.config.shipment_delay + n := by
        rw [List.length_append, List.length_replicate, hlen]
      have hnlt : n < (List.replicate sim.config.shipment_delay 0 ++
          mfrOrders (ChainSimulation.runAux n sim).history).length := by
        omega
      have hbufcons : (ChainSimulation.runAux n sim).production_delay.buffer =
          (List.replicate sim.config.shipment_delay 0 ++
            mfrOrders (ChainSimulation.runAux n sim).history)[n] ::
          (List.replicate sim.config.shipment_delay 0 ++
            mfrOrders (ChainSimulation.runAux n sim).history).drop (n + 1) := by
        rw [hbuf]
        exact List.drop_eq_getElem_cons hnlt
      have hpop : (ChainSimulation.runAux n sim).production_delay.pop_arrival =
          ((List.replicate sim.config.shipment_delay 0 ++
              mfrOrders (ChainSimulation.runAux n sim).history)[n],
            ⟨(List.replicate sim.config.shipment_delay 0 ++
              mfrOrders (ChainSimulation.runAux n sim).history).drop (n + 1),
             (ChainSimulation.runAux n sim).production_delay.delay_length⟩) := by
        unfold TimeDelayQueue.pop_arrival
        rw [hbufcons]
      have hstepprod :
          (ChainSimulation.runAux n sim).step.production_delay.buffer =
          (List.replicate sim.config.shipment_delay 0 ++
            mfrOrders (ChainSimulation.runAux n sim).history).drop (n + 1) ++
          [(ChainSimulation.runAux n sim).step.agentM.last_order_placed] := by
        rw [step_production_delay, hpop]
        rfl
      have hrecship : (recordEntry (ChainSimulation.runAux n sim).current_week
          (ChainSimulation.runAux n sim).step.agentM).shipment_received =
          (List.replicate sim.config.shipment_delay 0 ++
            mfrOrders (ChainSimulation.runAux n sim).history)[n] := by
        show (ChainSimulation.runAux n sim).step.agentM.last_shipment_received
          = _
        rw [step_agentM_last_shipment_received, hpop]
      have hos : mfrOrders (ChainSimulation.runAux n sim).step.history =
          mfrOrders (ChainSimulation.runAux n sim).history ++
          [(ChainSimulation.runAux n sim).step.agentM.last_order_placed] := by
        unfold mfrOrders
        rw [hrec, List.map_append]
        rfl
      rw [runAux_succ]
      refine ⟨?_, ?_, ?_, ?_⟩
      · rw [hos, List.length_append, hlen]
        rfl
      · unfold mfrWeeks
        rw [hrec, List.map_append]
        have hmw : (mfrRecords
            (ChainSimulation.runAux n sim).history).map (fun r => r.week) =
            List.range' 1 n := hwks
        rw [hmw]
        show List.range' 1 n ++
          [(ChainSimulation.runAux n sim).current_week] = _
        rw [hcw, List.range'_concat]
        simp
      · rw [hstepprod, hos, ← List.append_assoc]
        exact (List.drop_append_of_le_length (by omega)).symm
      · unfold mfrArrivals
        rw [hrec, List.map_append]
        have hma : (mfrRecords
            (ChainSimulation.runAux n sim).history).map
              (fun r => r.shipment_received) =
            (List.replicate sim.config.shipment_delay 0 ++
              mfrOrders (ChainSimulation.runAux n sim).history).take n := harr
        rw [hma]
        show _ ++ [(recordEntry (ChainSimulation.runAux n sim).current_week
          (ChainSimulation.runAux n sim).step.agentM).shipment_received] = _
        rw [hrecship, hos, ← List.append_assoc]
        rw [List.take_append_of_le_length
          (show n + 1 ≤ (List.replicate sim.config.shipment_delay 0 ++
            mfrOrders (ChainSimulation.runAux n sim).history).length by omega)]
        rw [← List.concat_eq_append, List.take_concat_get]

/-- C10: the production pipe is built from the shipment delay alone (and,
when the order delay is positive, that lead time is strictly shorter than
the `order_delay + shipment_delay` lead time of the other stages); over a
whole run with shipment delay ≥ 1, the manufacturer's recorded arrival of
week `w` is 0 for `w ≤ shipment_delay` and equals its own recorded order of
week `w − shipment_delay` afterwards. -/
theorem manufacturer_production_lag {σ : Type} (cfg : SimulationConfig)
    (sched : List Nat) (strategies : List (PolicyBox σ))
    (sim : ChainSimulation σ)
    (hnew : ChainSimulation.new cfg sched strategies = some sim)
    (hsd : 1 ≤ cfg.shipment_delay) (hod : 1 ≤ cfg.order_delay) :
    sim.production_delay = TimeDelayQueue.new cfg.shipment_delay ∧
    cfg.shipment_delay < cfg.order_delay + cfg.shipment_delay ∧
    ∀ w, 1 ≤ w → w ≤ cfg.max_weeks →
      ((mfrRecords (sim.run).history).getD (w - 1) default).week = w ∧
      ((mfrRecords (sim.run).history).getD (w - 1) default).shipment_received
        = (if w ≤ cfg.shipment_delay then 0
           else ((mfrRecords (sim.run).history).getD
             (w - cfg.shipment_delay - 1) default).order_placed) := by
  obtain ⟨-, hcfg, -, hweek, hnil, hR, hW, hD, hM, -, -, -, -, hprod⟩ :=
    new_some_elim hnew
  have hsd2 : 1 ≤ sim.config.shipment_delay := by rw [hcfg]; exact hsd
  have hprodbuf : sim.production_delay.buffer =
      List.replicate sim.config.shipment_delay 0 := by
    rw [hprod, hcfg]
    rfl
  have hinv := runAux_mfr_pipeline cfg.max_weeks sim hsd2 hR hW hD hM hnil
    hweek hprodbuf
  obtain ⟨hlen, hwks, -, harr⟩ := hinv
  rw [hcfg] at harr
  have hrun := run_eq_runAux_of_new hnew
  refine ⟨hprod, by omega, ?_⟩
  rw [hrun]
  intro w hw1 hw2
  set H := (ChainSimulation.runAux cfg.max_weeks sim).history with hH
  have hMOlen : (mfrOrders H).length = (mfrRecords H).length := by
    unfold mfrOrders
    rw [List.length_map]
  have hMlen : (mfrRecords H).length = cfg.max_weeks := by omega
  have hidx : w - 1 < (mfrRecords H).length := by omega
  have hwkfact : (mfrRecords H)[w - 1].week = w := by
    have hmapidx : w - 1 < ((mfrRecords H).map (fun r => r.week)).length := by
      rw [List.length_map]
      omega
    have h2 : ((mfrRecords H).map (fun r => r.week))[w - 1] = w := by
      rw [List.getElem_of_eq
        (show (mfrRecords H).map (fun r => r.week) =
          List.range' 1 cfg.max_weeks from hwks) hmapidx]
      rw [List.getElem_range']
      omega
    rw [List.getElem_map] at h2
    exact h2
  have harridx : w - 1 < (mfrArrivals H).length := by
    unfold mfrArrivals
    rw [List.length_map]
    omega
  have hABlen : w - 1 <
      (List.replicate cfg.shipment_delay 0 ++ mfrOrders H).length := by
    rw [List.length_append, List.length_replicate]
    omega
  have htklen : w - 1 < ((List.replicate cfg.shipment_delay 0 ++
      mfrOrders H).take cfg.max_weeks).length := by
    rw [List.length_take, List.length_append, List.length_replicate]
    simp only [hMOlen, hMlen]
    omega
  have hship : (mfrRecords H)[w - 1].shipment_received =
      (List.replicate cfg.shipment_delay 0 ++ mfrOrders H)[w - 1] := by
    have h4 : (mfrArrivals H)[w - 1] =
        (mfrRecords H)[w - 1].shipment_received := by
      unfold mfrArrivals
      rw [List.getElem_map]
    rw [← h4]
    have h5 : (mfrArrivals H)[w - 1] =
        ((List.replicate cfg.shipment_delay 0 ++
          mfrOrders H).take cfg.max_weeks)[w - 1] :=
      List.getElem_of_eq harr harridx
    rw [h5, List.getElem_take]
  refine ⟨by rw [List.getD_eq_getElem _ _ hidx]; exact hwkfact, ?_⟩
  rw [List.getD_eq_getElem _ _ hidx, hship]
  by_cases hcase : w ≤ cfg.shipment_delay
  · rw [if_pos hcase]
    rw [List.getElem_append_left (by rw [List.length_replicate]; omega)]
    exact List.getElem_replicate _ _
  · rw [if_neg hcase]
    rw [List.getElem_append_right (by rw [List.length_replicate]; omega)]
    have hix : w - 1 - (List.replicate cfg.shipment_delay (0 : Nat)).length =
        w - cfg.shipment_delay - 1 := by
      rw [List.length_replicate]
      omega
    simp only [hix]
    have hidx2 : w - cfg.shipment_delay - 1 < (mfrRecords H).length := by
      omega
    rw [List.getD_eq_getElem _ _ hidx2]
    unfold mfrOrders
    rw [List.getElem_map]

/-- C10 witness: in the 3-week witness run (delays 1/1), the production
pipe is built from the shipment delay, and the manufacturer's week-2
arrival equals its own week-1 order. -/
theorem manufacturer_production_lag_witness :
    wsim.production_delay = TimeDelayQueue.new wcfg.shipment_delay ∧
    ((mfrRecords (wsim.run).history).getD 1 default).week = 2 ∧
    ((mfrRecords (wsim.run).history).getD 1 default).shipment_received =
      ((mfrRecords (wsim.run).history).getD 0 default).order_placed := by
  have h := manufacturer_production_lag wcfg [7]
    [naiveBox, naiveBox, naiveBox, naiveBox] wsim rfl (by decide) (by decide)
  have h2 := h.2.2 2 (by decide) (by decide)
  refine ⟨h.1, h2.1, ?_⟩
  have h3 := h2.2
  rw [if_neg (by decide)] at h3
  have h4 : (2 : Nat) - wcfg.shipment_delay - 1 = 0 := by decide
  rw [h4] at h3
  exact h3

/-- C4 amended-claim witness: bounds (5, 3) build fine but every draw
panics; bounds (3, 5) with entropy 7 draw 3 + 7 % 3 = 4 ∈ [3, 5]. -/
theorem random_policy_unchecked_witness :
    RandomPolicy.calculate_order (RandomPolicy.new 5 3) 0 0 0 0
      OrderContext.default 4 = none ∧
    RandomPolicy.calculate_order (RandomPolicy.new 3 5) 0 0 0 0
      OrderContext.default 7 = some 4 := by
  constructor
  · exact (random_policy_unchecked 5 3).2.1 (by decide) 0 0 0 0
      OrderContext.default 4
  · obtain ⟨k, hk, -, -⟩ := (random_policy_unchecked 3 5).2.2 (by decide)
      0 0 0 0 OrderContext.default 7
    rw [hk]
    have : k = 4 := by
      have h := hk
      unfold RandomPolicy.calculate_order RandomPolicy.new at h
      rw [if_pos (by decide)] at h
      simpa using h.symm
    rw [this]

end Bullwhip
